import Mathlib

/-!
Verification development for the stock-cache sync script
(`push_data_stock_to_Redis.py`).

The script is embedded shallowly:

* A relational row (as returned by a `RealDictCursor`) is an association
  list of field name to `PyVal`.  `PyVal` covers the value shapes a row
  from the relational source can carry: SQL NULL (`none`), a calendar
  date (`date`), a numeric (`num`, modelled as `Rat`), and text (`str`).
* The relational cursor is abstracted as a function from query text to
  either a list of rows or an exception; the query text itself is built
  by the same string interpolation as the source.
* Python exceptions that matter to the control flow are `PyExc`:
  `attributeError` is what `row['date'].strftime(...)` raises when the
  field is present but not a date object (it is NOT caught by the
  source's `except (ValueError, TypeError)` clause), and `dbError` stands
  for the exceptions of the database / cache clients.
* `float(str(v).replace(',', ''))` is modelled by `coercePrice`: a
  numeric value re-parses to itself, a string is parsed after removing
  commas, and anything else fails the parse (Python raises `ValueError`,
  which IS caught).  The string parser `pyFloat` models Python's `float`
  on sign / digits / decimal point / exponent literals (the forms
  relevant to this program); `inf`/`nan`/underscore literals are outside
  the model and count as unparseable.
* `strftime('%Y-%m-%d')` is modelled by `fmtDate`, zero-padding the year
  to four digits; this is accurate for years 1000..9999 (the range
  `pyDateValid` constrains), where platform `strftime` implementations
  agree.
-/

inductive PyVal : Type where
  | none : PyVal
  | date (y m d : Nat) : PyVal
  | num (q : Rat) : PyVal
  | str (s : String) : PyVal
deriving DecidableEq, Repr

inductive PyExc : Type where
  | attributeError : PyExc
  | dbError (msg : String) : PyExc
deriving DecidableEq, Repr

instance {ε α : Type} [DecidableEq ε] [DecidableEq α] : DecidableEq (Except ε α) := fun a b =>
  match a, b with
  | Except.error e, Except.error f => decidable_of_iff (e = f) (by simp)
  | Except.error _, Except.ok _ => isFalse (by simp)
  | Except.ok _, Except.error _ => isFalse (by simp)
  | Except.ok a, Except.ok b => decidable_of_iff (a = b) (by simp)

/-- A Python dict with string keys, as produced by `RealDictCursor` rows
and by the processed points the script builds. -/
abbrev Dict : Type := List (String × PyVal)

abbrev Row : Type := Dict

/-- `row.get(k)`: the first value stored under `k`, or `None` when the
key is absent. -/
def dget (row : Row) (k : String) : PyVal :=
  ((row.find? (fun p => p.1 == k)).map Prod.snd).getD PyVal.none

/-- Numeric value of a digit string (most significant first). -/
def digitsToNat (cs : List Char) : Nat :=
  cs.foldl (fun a c => a * 10 + (c.toNat - '0'.toNat)) 0

/-- Exponent digits after an optional sign: nonempty, all digits. -/
def expDigits (cs : List Char) : Option Int :=
  if cs ≠ [] ∧ cs.all (fun c => c.isDigit) then some (digitsToNat cs : Int) else none

def parseExpAfterE (cs : List Char) : Option Int :=
  match cs with
  | '+' :: rest => expDigits rest
  | '-' :: rest => (expDigits rest).map (fun n => -n)
  | rest => expDigits rest

/-- The optional exponent suffix of a float literal; empty input means
exponent `0`. -/
def parseExp (cs : List Char) : Option Int :=
  match cs with
  | [] => some 0
  | 'e' :: rest => parseExpAfterE rest
  | 'E' :: rest => parseExpAfterE rest
  | _ => none

/-- An unsigned float literal: digits, optional fraction, optional
exponent; at least one mantissa digit.  Returns the mantissa digits'
value, the number of fraction digits, and the exponent. -/
def parseUnsigned (cs : List Char) : Option (Nat × Nat × Int) :=
  let ip := cs.takeWhile (fun c => c.isDigit)
  let rest := cs.dropWhile (fun c => c.isDigit)
  match rest with
  | '.' :: rest2 =>
    let fp := rest2.takeWhile (fun c => c.isDigit)
    let rest3 := rest2.dropWhile (fun c => c.isDigit)
    if ip = [] ∧ fp = [] then none
    else (parseExp rest3).map (fun e => (digitsToNat (ip ++ fp), fp.length, e))
  | _ =>
    if ip = [] then none
    else (parseExp rest).map (fun e => (digitsToNat ip, 0, e))

/-- The exact rational value `sign * mant * 10 ^ (e - fracLen)`. -/
def ratOfParts (sign : Int) (mant : Nat) (fracLen : Nat) (e : Int) : Rat :=
  let e2 : Int := e - (fracLen : Int)
  if 0 ≤ e2 then mkRat (sign * ((mant * 10 ^ e2.toNat : Nat) : Int)) 1
  else mkRat (sign * (mant : Int)) (10 ^ (-e2).toNat)

/-- Leading and trailing whitespace removed, as Python `float` tolerates. -/
def trimWs (cs : List Char) : List Char :=
  ((cs.dropWhile (fun c => c.isWhitespace)).reverse.dropWhile
    (fun c => c.isWhitespace)).reverse

/-- Model of Python `float(s)` on finite decimal literals: optional
surrounding whitespace, optional sign, mantissa, optional exponent. -/
def pyFloat (s : String) : Option Rat :=
  match trimWs s.data with
  | '+' :: cs => (parseUnsigned cs).map (fun p => ratOfParts 1 p.1 p.2.1 p.2.2)
  | '-' :: cs => (parseUnsigned cs).map (fun p => ratOfParts (-1) p.1 p.2.1 p.2.2)
  | cs => (parseUnsigned cs).map (fun p => ratOfParts 1 p.1 p.2.1 p.2.2)

/-- `s.replace(',', '')`: every comma removed. -/
def stripCommas (s : String) : String :=
  String.mk (s.data.filter (fun c => !(c == ',')))

/-- Model of `float(str(v).replace(',', ''))`: `none` means the Python
call raises `ValueError`/`TypeError` (caught by the normalizers). A
numeric value survives the `str` round-trip unchanged and its text holds
no comma; a date prints as `YYYY-MM-DD`, which never parses as a float;
`str(None) = "None"` does not parse either. -/
def coercePrice : PyVal → Option Rat
  | PyVal.num q => some q
  | PyVal.str s => pyFloat (stripCommas s)
  | PyVal.date _ _ _ => none
  | PyVal.none => none

/-- Model of `strftime('%Y-%m-%d')` on a date value: year zero-padded to
four digits (accurate for years 1000..9999), month and day to two. -/
def fmtDate (y m d : Nat) : String :=
  String.mk [Nat.digitChar (y / 1000 % 10), Nat.digitChar (y / 100 % 10),
             Nat.digitChar (y / 10 % 10), Nat.digitChar (y % 10), '-',
             Nat.digitChar (m / 10 % 10), Nat.digitChar (m % 10), '-',
             Nat.digitChar (d / 10 % 10), Nat.digitChar (d % 10)]

/-- `v.strftime('%Y-%m-%d')`: only date objects have the method; on any
other value Python raises `AttributeError`, which the normalizers do not
catch. -/
def pyStrftime : PyVal → Except PyExc String
  | PyVal.date y m d => Except.ok (fmtDate y m d)
  | _ => Except.error PyExc.attributeError

/-- The dates Python's `datetime.date` can hold, restricted to years
where the `%Y` format is unambiguously four digits. -/
def pyDateValid : PyVal → Prop
  | PyVal.date y m d => 1000 ≤ y ∧ y ≤ 9999 ∧ 1 ≤ m ∧ m ≤ 12 ∧ 1 ≤ d ∧ d ≤ 31
  | _ => True

instance (v : PyVal) : Decidable (pyDateValid v) :=
  match v with
  | PyVal.date y m d =>
      inferInstanceAs (Decidable (1000 ≤ y ∧ y ≤ 9999 ∧ 1 ≤ m ∧ m ≤ 12 ∧ 1 ≤ d ∧ d ≤ 31))
  | PyVal.none => inferInstanceAs (Decidable True)
  | PyVal.num _ => inferInstanceAs (Decidable True)
  | PyVal.str _ => inferInstanceAs (Decidable True)

/-- Does a character list have the `YYYY-MM-DD` shape? -/
def isIsoShapeL : List Char → Bool
  | [y1, y2, y3, y4, h1, m1, m2, h2, d1, d2] =>
    y1.isDigit && y2.isDigit && y3.isDigit && y4.isDigit &&
    (h1 == '-') && m1.isDigit && m2.isDigit && (h2 == '-') && d1.isDigit && d2.isDigit
  | _ => false

/-- Does a string have the `YYYY-MM-DD` shape? -/
def isIsoShape (s : String) : Bool := isIsoShapeL s.data

/-- A processed point: the dict literal
`{'date': ds, k: v}` the normalizers append. -/
def mkPoint (k : String) (ds : String) (v : Rat) : Dict :=
  [("date", PyVal.str ds), (k, PyVal.num v)]

/-- `process_rows(rows, price_column_name)` from the source: skip rows
whose date or price field is missing/NULL; format the date; coerce the
price, skipping the row when the coercion raises
`ValueError`/`TypeError`; an `AttributeError` from `strftime` escapes. -/
def process_rows : List Row → String → Except PyExc (List Dict)
  | [], _ => Except.ok []
  | row :: rest, price_column_name =>
    if dget row "date" = PyVal.none ∨ dget row price_column_name = PyVal.none then
      process_rows rest price_column_name
    else
      match pyStrftime (dget row "date") with
      | Except.error e => Except.error e
      | Except.ok ds =>
        match coercePrice (dget row price_column_name) with
        | none => process_rows rest price_column_name
        | some v =>
          Except.map (fun out => mkPoint "close_price" ds v :: out)
            (process_rows rest price_column_name)

/-- The output field of `process_rows_with_prediction`: `predict_price`
exactly when `keep_original_label` is set and the price column is
`predict_price`, else `close_price`. -/
def predColumn (keep_original_label : Bool) (price_column_name : String) : String :=
  if keep_original_label && (price_column_name == "predict_price") then "predict_price"
  else "close_price"

/-- `process_rows_with_prediction(rows, price_column_name,
keep_original_label)` from the source. -/
def process_rows_with_prediction :
    List Row → String → Bool → Except PyExc (List Dict)
  | [], _, _ => Except.ok []
  | row :: rest, price_column_name, keep_original_label =>
    if dget row "date" = PyVal.none ∨ dget row price_column_name = PyVal.none then
      process_rows_with_prediction rest price_column_name keep_original_label
    else
      match pyStrftime (dget row "date") with
      | Except.error e => Except.error e
      | Except.ok ds =>
        match coercePrice (dget row price_column_name) with
        | none => process_rows_with_prediction rest price_column_name keep_original_label
        | some v =>
          Except.map
            (fun out => mkPoint (predColumn keep_original_label price_column_name) ds v :: out)
            (process_rows_with_prediction rest price_column_name keep_original_label)

/-- `f'"{stock_ticker}_Stock"'`: the quoted table name. -/
def mk_table_name (stock_ticker : String) : String :=
  "\"" ++ stock_ticker ++ "_Stock\""

/-- The query text of `fetch_stock_data` (whitespace collapsed). -/
def stock_query (table_name time_condition : String) : String :=
  "SELECT \"date\", \"close_price\" FROM " ++ table_name ++ " " ++ time_condition
    ++ " ORDER BY \"date\" ASC;"

/-- The past-actual query of `fetch_stock_data_combined`. -/
def past_historical_query (table_name interval_str : String) : String :=
  "SELECT \"date\", \"close_price\" FROM " ++ table_name
    ++ " WHERE \"date\" >= (NOW() - INTERVAL " ++ interval_str
    ++ ") AND \"date\" <= NOW()::date ORDER BY \"date\" ASC;"

/-- The past-predicted query of `fetch_stock_data_combined`. -/
def past_prediction_query (table_name interval_str : String) : String :=
  "SELECT \"date\", \"predict_price\" FROM " ++ table_name
    ++ " WHERE \"date\" >= (NOW() - INTERVAL " ++ interval_str
    ++ ") AND \"date\" < NOW()::date AND \"predict_price\" IS NOT NULL ORDER BY \"date\" ASC;"

/-- The future-predicted query of `fetch_stock_data_combined`. -/
def future_query (table_name : String) : String :=
  "SELECT \"date\", \"predict_price\" FROM " ++ table_name
    ++ " WHERE \"date\" >= NOW()::date AND \"date\" <= (NOW()::date + INTERVAL "
    ++ "'10 days'" ++ ") ORDER BY \"date\" ASC;"

/-- The relational cursor, abstracted as a map from query text to the
fetched rows; `Except.error` is a raised database exception.  This is
the `cursor.execute` / `cursor.fetchall` pair of the source. -/
abbrev Cursor : Type := String → Except PyExc (List Row)

/-- `fetch_stock_data(cursor, stock_ticker, time_condition)`: one query,
normalized with `process_rows` under the actual-price column. -/
def fetch_stock_data (cursor : Cursor) (stock_ticker time_condition : String) :
    Except PyExc (List Dict) :=
  Except.bind (cursor (stock_query (mk_table_name stock_ticker) time_condition))
    (fun rows => process_rows rows "close_price")

/-- `fetch_stock_data_combined(cursor, stock_ticker, interval_str)`:
three queries — past-actual, past-predicted, future-predicted — each
normalized, then concatenated as
`(past_historical + past_predictions) + future`. -/
def fetch_stock_data_combined (cursor : Cursor) (stock_ticker interval_str : String) :
    Except PyExc (List Dict) :=
  Except.bind (cursor (past_historical_query (mk_table_name stock_ticker) interval_str))
    (fun past_historical_rows =>
  Except.bind (process_rows past_historical_rows "close_price")
    (fun processed_past_historical =>
  Except.bind (cursor (past_prediction_query (mk_table_name stock_ticker) interval_str))
    (fun past_prediction_rows =>
  Except.bind (process_rows_with_prediction past_prediction_rows "predict_price" true)
    (fun processed_past_predictions =>
  Except.bind (cursor (future_query (mk_table_name stock_ticker)))
    (fun future_rows =>
  Except.bind (process_rows_with_prediction future_rows "predict_price" true)
    (fun processed_future_data =>
  Except.ok ((processed_past_historical ++ processed_past_predictions)
    ++ processed_future_data)))))))

/-- One `pipe.set(redis_key, json_data, ex=86400)` command staged on the
Redis pipeline.  The serialized payload is kept structured. -/
structure StagedCmd : Type where
  key : String
  value : List Dict
  ex : Nat
deriving DecidableEq, Repr

def STOCKS_TO_PROCESS : List String := ["FPT", "GAS", "IMP", "VCB"]

/-- `TIME_RANGES` as an insertion-ordered association list. -/
def TIME_RANGES : List (String × String) :=
  [("all", ""),
   ("1M", "SPECIAL_CASE"),
   ("3M", "SPECIAL_CASE"),
   ("1Y", "WHERE \"date\" >= NOW() - INTERVAL '1 year'"),
   ("5Y", "WHERE \"date\" >= NOW() - INTERVAL '5 years'")]

def SPECIAL_CASE_INTERVALS : List (String × String) :=
  [("1M", "'1 month'"), ("3M", "'3 months'")]

/-- `d.get(k)` on an insertion-ordered dict. -/
def dictFind (d : List (String × String)) (k : String) : Option String :=
  (d.find? (fun p => p.1 == k)).map Prod.snd

/-- The body of the orchestrator's inner loop that computes `stock_data`
for one `(ticker, range_key)` pair: special-case ranges go through the
combined fetch when their interval is defined and otherwise just log a
warning and leave `stock_data` empty; every other range goes through the
plain fetch. -/
def build_pair (intervals : List (String × String)) (cursor : Cursor)
    (ticker range_key condition : String) : Except PyExc (List Dict) :=
  if condition = "SPECIAL_CASE" then
    match dictFind intervals range_key with
    | some interval => fetch_stock_data_combined cursor ticker interval
    | none => Except.ok []
  else
    fetch_stock_data cursor ticker condition

/-- The staging step guarded by `if stock_data:`: a non-empty series is
staged under `stock:<ticker>:<range_key>` with a 86400-second expiry; an
empty one stages nothing. -/
def stage_pair (ticker range_key : String) (stock_data : List Dict) : List StagedCmd :=
  if stock_data = [] then []
  else [StagedCmd.mk ("stock:" ++ ticker ++ ":" ++ range_key) stock_data 86400]

/-- The inner `for range_key, condition in TIME_RANGES.items()` loop for
one ticker, accumulating the staged pipeline commands. -/
def sync_ranges (intervals : List (String × String)) (cursor : Cursor)
    (ticker : String) : List (String × String) → Except PyExc (List StagedCmd)
  | [] => Except.ok []
  | (range_key, condition) :: rest =>
    Except.bind (build_pair intervals cursor ticker range_key condition)
      (fun stock_data =>
    Except.bind (sync_ranges intervals cursor ticker rest)
      (fun restCmds =>
    Except.ok (stage_pair ticker range_key stock_data ++ restCmds)))

/-- The outer `for ticker in STOCKS_TO_PROCESS` loop. -/
def sync_tickers (timeRanges intervals : List (String × String)) (cursor : Cursor) :
    List String → Except PyExc (List StagedCmd)
  | [] => Except.ok []
  | ticker :: rest =>
    Except.bind (sync_ranges intervals cursor ticker timeRanges)
      (fun cmds =>
    Except.bind (sync_tickers timeRanges intervals cursor rest)
      (fun restCmds =>
    Except.ok (cmds ++ restCmds)))

/-- The full double loop with the shipped constants. -/
def sync_loop (cursor : Cursor) : Except PyExc (List StagedCmd) :=
  sync_tickers TIME_RANGES SPECIAL_CASE_INTERVALS cursor STOCKS_TO_PROCESS

/-- Observable outcome of one `sync_stock_data_to_redis()` run:
the returned value or the re-raised exception, whether `pipe.execute()`
was reached, and whether the PostgreSQL connection was closed by the
`finally` block. -/
structure SyncOutcome : Type where
  result : Except PyExc String
  commitAttempted : Bool
  pgClosed : Bool
deriving DecidableEq, Repr

/-- `sync_stock_data_to_redis()`: run the double loop, then commit the
pipeline once; any exception skips the commit, is re-raised after
logging, and the `finally` block closes the relational connection on
every path.  Connection acquisition is abstracted as succeeding; the
batch transport `pipe.execute()` is the `commit` argument. -/
def sync_stock_data_to_redis (cursor : Cursor)
    (commit : List StagedCmd → Except PyExc Unit) : SyncOutcome :=
  match sync_loop cursor with
  | Except.error e => SyncOutcome.mk (Except.error e) false true
  | Except.ok cmds =>
    match commit cmds with
    | Except.error e => SyncOutcome.mk (Except.error e) true true
    | Except.ok _ => SyncOutcome.mk (Except.ok "Stock data synced successfully.") true true

/-- A valid actual-price row. -/
def rowA : Row := [("date", PyVal.date 2024 1 2), ("close_price", PyVal.num 10)]

/-- A valid predicted-price row on the same date as `rowA`. -/
def rowP : Row := [("date", PyVal.date 2024 1 2), ("predict_price", PyVal.num 11)]

/-- A row with a NULL date. -/
def rowBad : Row := [("date", PyVal.none), ("close_price", PyVal.num 3)]

/-- A row whose price carries a thousands separator. -/
def rowComma : Row := [("date", PyVal.date 2024 1 3), ("close_price", PyVal.str "1,234.5")]

/-- A row whose price has non-numeric residue. -/
def rowNonNum : Row := [("date", PyVal.date 2024 1 4), ("close_price", PyVal.str "abc")]

/-- A row whose date field is a string rather than a date object. -/
def rowStrDate : Row := [("date", PyVal.str "2024-01-01"), ("close_price", PyVal.num 1)]

def ptA : Dict := mkPoint "close_price" (fmtDate 2024 1 2) 10

def ptP : Dict := mkPoint "predict_price" (fmtDate 2024 1 2) 11

/-- A database where every query returns no rows. -/
def cursorNil : Cursor := fun _ => Except.ok []

/-- A database whose every query raises. -/
def cursorErr : Cursor := fun _ => Except.error (PyExc.dbError "db down")

/-- A database where every query returns the single valid row `rowA`. -/
def cursorOne : Cursor := fun _ => Except.ok [rowA]

/-- A database answering the three blended queries for `FPT` over
`'1 month'`, with the same predicted row on both sides of today. -/
def cursorB : Cursor := fun q =>
  if q = past_historical_query (mk_table_name "FPT") "'1 month'" then Except.ok [rowA]
  else if q = past_prediction_query (mk_table_name "FPT") "'1 month'" then Except.ok [rowP]
  else if q = future_query (mk_table_name "FPT") then Except.ok [rowP]
  else Except.ok []

/-- A batch transport that succeeds. -/
def commitOk : List StagedCmd → Except PyExc Unit := fun _ => Except.ok ()

/-- A batch transport that raises. -/
def commitFail : List StagedCmd → Except PyExc Unit :=
  fun _ => Except.error (PyExc.dbError "redis down")

example :
    fetch_stock_data_combined cursorB "FPT" "'1 month'"
      = Except.ok [ptA, ptP, ptP] := by decide
example :
    sync_ranges [] cursorOne "FPT" [("all", "")]
      = Except.ok [StagedCmd.mk "stock:FPT:all" [ptA] 86400] := by decide
example : sync_loop cursorErr = Except.error (PyExc.dbError "db down") := by decide
example : sync_loop cursorNil = Except.ok [] := by decide

example : pyFloat "1234.5" = some (mkRat 2469 2) := by decide
example : pyFloat (stripCommas "1,234.5") = some (mkRat 2469 2) := by decide
example : pyFloat "abc" = none := by decide
example : pyFloat "-2e3" = some (mkRat (-2000) 1) := by decide
example :
    process_rows [[("date", PyVal.date 2024 1 2), ("close_price", PyVal.num 10)]] "close_price"
      = Except.ok [mkPoint "close_price" "2024-01-02" 10] := by decide

/-! ### Helper lemmas -/

theorem except_bind_ok {α β : Type} (a : α) (f : α → Except PyExc β) :
    Except.bind (Except.ok a) f = f a := rfl

theorem digitChar_lt_isDigit (k : Nat) (h : k < 10) : (Nat.digitChar k).isDigit = true := by
  interval_cases k <;> rfl

theorem digitChar_mod10_isDigit (n : Nat) : (Nat.digitChar (n % 10)).isDigit = true :=
  digitChar_lt_isDigit _ (Nat.mod_lt _ (by decide))

theorem isIsoShape_fmtDate (y m d : Nat) : isIsoShape (fmtDate y m d) = true := by
  simp only [isIsoShape, fmtDate, isIsoShapeL, digitChar_mod10_isDigit]
  rfl

theorem process_rows_skip (row : Row) (rest : List Row) (col : String)
    (h : dget row "date" = PyVal.none ∨ dget row col = PyVal.none) :
    process_rows (row :: rest) col = process_rows rest col := by
  rw [process_rows, if_pos h]

theorem pwp_skip (row : Row) (rest : List Row) (col : String) (keep : Bool)
    (h : dget row "date" = PyVal.none ∨ dget row col = PyVal.none) :
    process_rows_with_prediction (row :: rest) col keep
      = process_rows_with_prediction rest col keep := by
  rw [process_rows_with_prediction, if_pos h]

theorem process_rows_length (rows : List Row) (col : String) :
    ∀ out, process_rows rows col = Except.ok out → out.length ≤ rows.length := by
  induction rows with
  | nil =>
    intro out h
    simp only [process_rows, Except.ok.injEq] at h
    subst h
    exact Nat.le_refl 0
  | cons row rest ih =>
    intro out h
    rw [process_rows] at h
    by_cases hskip : dget row "date" = PyVal.none ∨ dget row col = PyVal.none
    · rw [if_pos hskip] at h
      exact Nat.le_succ_of_le (ih out h)
    · rw [if_neg hskip] at h
      cases hst : pyStrftime (dget row "date") with
      | error e => rw [hst] at h; cases h
      | ok ds =>
        rw [hst] at h
        cases hc : coercePrice (dget row col) with
        | none => rw [hc] at h; exact Nat.le_succ_of_le (ih out h)
        | some v =>
          rw [hc] at h
          cases hrec : process_rows rest col with
          | error e => rw [hrec] at h; cases h
          | ok o =>
            rw [hrec] at h
            simp only [Except.map, Except.ok.injEq] at h
            subst h
            exact Nat.succ_le_succ (ih o hrec)

theorem pwp_length (rows : List Row) (col : String) (keep : Bool) :
    ∀ out, process_rows_with_prediction rows col keep = Except.ok out →
      out.length ≤ rows.length := by
  induction rows with
  | nil =>
    intro out h
    simp only [process_rows_with_prediction, Except.ok.injEq] at h
    subst h
    exact Nat.le_refl 0
  | cons row rest ih =>
    intro out h
    rw [process_rows_with_prediction] at h
    by_cases hskip : dget row "date" = PyVal.none ∨ dget row col = PyVal.none
    · rw [if_pos hskip] at h
      exact Nat.le_succ_of_le (ih out h)
    · rw [if_neg hskip] at h
      cases hst : pyStrftime (dget row "date") with
      | error e => rw [hst] at h; cases h
      | ok ds =>
        rw [hst] at h
        cases hc : coercePrice (dget row col) with
        | none => rw [hc] at h; exact Nat.le_succ_of_le (ih out h)
        | some v =>
          rw [hc] at h
          cases hrec : process_rows_with_prediction rest col keep with
          | error e => rw [hrec] at h; cases h
          | ok o =>
            rw [hrec] at h
            simp only [Except.map, Except.ok.injEq] at h
            subst h
            exact Nat.succ_le_succ (ih o hrec)

theorem process_rows_shape (rows : List Row) (col : String) :
    ∀ out, process_rows rows col = Except.ok out →
      ∀ p ∈ out, ∃ y m d v, p = mkPoint "close_price" (fmtDate y m d) v := by
  induction rows with
  | nil =>
    intro out h
    simp only [process_rows, Except.ok.injEq] at h
    subst h
    intro p hp
    cases hp
  | cons row rest ih =>
    intro out h
    rw [process_rows] at h
    by_cases hskip : dget row "date" = PyVal.none ∨ dget row col = PyVal.none
    · rw [if_pos hskip] at h
      exact ih out h
    · rw [if_neg hskip] at h
      cases hst : pyStrftime (dget row "date") with
      | error e => rw [hst] at h; cases h
      | ok ds =>
        rw [hst] at h
        have hds : ∃ y m d, ds = fmtDate y m d := by
          cases hdv : dget row "date" with
          | date y m d =>
            rw [hdv] at hst
            simp only [pyStrftime, Except.ok.injEq] at hst
            exact ⟨y, m, d, hst.symm⟩
          | none => rw [hdv] at hst; cases hst
          | num q => rw [hdv] at hst; cases hst
          | str s => rw [hdv] at hst; cases hst
        cases hc : coercePrice (dget row col) with
        | none => rw [hc] at h; exact ih out h
        | some v =>
          rw [hc] at h
          cases hrec : process_rows rest col with
          | error e => rw [hrec] at h; cases h
          | ok o =>
            rw [hrec] at h
            simp only [Except.map, Except.ok.injEq] at h
            subst h
            intro p hp
            rcases List.mem_cons.mp hp with hp | hp
            · obtain ⟨y, m, d, hds⟩ := hds
              exact ⟨y, m, d, v, by rw [hp, hds]⟩
            · exact ih o hrec p hp

theorem pwp_shape (rows : List Row) (col : String) (keep : Bool) :
    ∀ out, process_rows_with_prediction rows col keep = Except.ok out →
      ∀ p ∈ out, ∃ y m d v, p = mkPoint (predColumn keep col) (fmtDate y m d) v := by
  induction rows with
  | nil =>
    intro out h
    simp only [process_rows_with_prediction, Except.ok.injEq] at h
    subst h
    intro p hp
    cases hp
  | cons row rest ih =>
    intro out h
    rw [process_rows_with_prediction] at h
    by_cases hskip : dget row "date" = PyVal.none ∨ dget row col = PyVal.none
    · rw [if_pos hskip] at h
      exact ih out h
    · rw [if_neg hskip] at h
      cases hst : pyStrftime (dget row "date") with
      | error e => rw [hst] at h; cases h
      | ok ds =>
        rw [hst] at h
        have hds : ∃ y m d, ds = fmtDate y m d := by
          cases hdv : dget row "date" with
          | date y m d =>
            rw [hdv] at hst
            simp only [pyStrftime, Except.ok.injEq] at hst
            exact ⟨y, m, d, hst.symm⟩
          | none => rw [hdv] at hst; cases hst
          | num q => rw [hdv] at hst; cases hst
          | str s => rw [hdv] at hst; cases hst
        cases hc : coercePrice (dget row col) with
        | none => rw [hc] at h; exact ih out h
        | some v =>
          rw [hc] at h
          cases hrec : process_rows_with_prediction rest col keep with
          | error e => rw [hrec] at h; cases h
          | ok o =>
            rw [hrec] at h
            simp only [Except.map, Except.ok.injEq] at h
            subst h
            intro p hp
            rcases List.mem_cons.mp hp with hp | hp
            · obtain ⟨y, m, d, hds⟩ := hds
              exact ⟨y, m, d, v, by rw [hp, hds]⟩
            · exact ih o hrec p hp

theorem predColumn_false (col : String) : predColumn false col = "close_price" := rfl

theorem predColumn_of_ne (keep : Bool) (col : String) (h : col ≠ "predict_price") :
    predColumn keep col = "close_price" := by
  simp [predColumn, h]

theorem predColumn_cases (keep : Bool) (col : String) :
    predColumn keep col = "close_price" ∨ predColumn keep col = "predict_price" := by
  unfold predColumn
  split
  · exact Or.inr rfl
  · exact Or.inl rfl

theorem pwp_eq_process_rows (rows : List Row) (col : String) (keep : Bool)
    (h : keep = false ∨ col ≠ "predict_price") :
    process_rows_with_prediction rows col keep = process_rows rows col := by
  have hlabel : predColumn keep col = "close_price" := by
    rcases h with h | h
    · rw [h]; exact predColumn_false col
    · exact predColumn_of_ne keep col h
  induction rows with
  | nil => rfl
  | cons row rest ih =>
    rw [process_rows_with_prediction, process_rows, hlabel]
    by_cases hskip : dget row "date" = PyVal.none ∨ dget row col = PyVal.none
    · rw [if_pos hskip, if_pos hskip]
      exact ih
    · rw [if_neg hskip, if_neg hskip]
      cases pyStrftime (dget row "date") with
      | error e => rfl
      | ok ds =>
        cases coercePrice (dget row col) with
        | none => exact ih
        | some v => rw [ih]

theorem process_rows_ok_of_dates (rows : List Row) (col : String)
    (hdates : ∀ row ∈ rows, dget row "date" = PyVal.none ∨
      ∃ y m d, dget row "date" = PyVal.date y m d) :
    ∃ out, process_rows rows col = Except.ok out := by
  induction rows with
  | nil => exact ⟨[], rfl⟩
  | cons row rest ih =>
    obtain ⟨o, ho⟩ := ih (fun r hr => hdates r (List.mem_cons_of_mem row hr))
    have hd := hdates row (List.mem_cons_self row rest)
    rw [process_rows]
    by_cases hskip : dget row "date" = PyVal.none ∨ dget row col = PyVal.none
    · rw [if_pos hskip]
      exact ⟨o, ho⟩
    · rw [if_neg hskip]
      have hdate : ∃ y m d, dget row "date" = PyVal.date y m d := by
        rcases hd with hd | hd
        · exact absurd (Or.inl hd) hskip
        · exact hd
      obtain ⟨y, m, d, hdate⟩ := hdate
      rw [hdate]
      simp only [pyStrftime]
      cases coercePrice (dget row col) with
      | none => exact ⟨o, ho⟩
      | some v => exact ⟨mkPoint "close_price" (fmtDate y m d) v :: o, by rw [ho]; rfl⟩

theorem pwp_ok_of_dates (rows : List Row) (col : String) (keep : Bool)
    (hdates : ∀ row ∈ rows, dget row "date" = PyVal.none ∨
      ∃ y m d, dget row "date" = PyVal.date y m d) :
    ∃ out, process_rows_with_prediction rows col keep = Except.ok out := by
  induction rows with
  | nil => exact ⟨[], rfl⟩
  | cons row rest ih =>
    obtain ⟨o, ho⟩ := ih (fun r hr => hdates r (List.mem_cons_of_mem row hr))
    have hd := hdates row (List.mem_cons_self row rest)
    rw [process_rows_with_prediction]
    by_cases hskip : dget row "date" = PyVal.none ∨ dget row col = PyVal.none
    · rw [if_pos hskip]
      exact ⟨o, ho⟩
    · rw [if_neg hskip]
      have hdate : ∃ y m d, dget row "date" = PyVal.date y m d := by
        rcases hd with hd | hd
        · exact absurd (Or.inl hd) hskip
        · exact hd
      obtain ⟨y, m, d, hdate⟩ := hdate
      rw [hdate]
      simp only [pyStrftime]
      cases coercePrice (dget row col) with
      | none => exact ⟨o, ho⟩
      | some v =>
        exact ⟨mkPoint (predColumn keep col) (fmtDate y m d) v :: o, by rw [ho]; rfl⟩

/-! ### Claim theorems -/

/-- C1: For every Blended range, `fetch_stock_data_combined` returns exactly
the concatenation of the three normalized sub-series in the fixed order
past-actual, past-predicted, future-predicted: the result's length is the
sum of the three normalized lengths, the sub-series appear contiguously in
that order, and no re-sorting or deduplication across sub-series happens —
every point (and so a date occurring in several sub-series) appears in the
result exactly as often as in the sub-series combined. -/
theorem fetch_combined_is_concatenation (cursor : Cursor)
    (stock_ticker interval_str : String) (r1 r2 r3 : List Row) (a b c : List Dict)
    (h1 : cursor (past_historical_query (mk_table_name stock_ticker) interval_str)
      = Except.ok r1)
    (h2 : cursor (past_prediction_query (mk_table_name stock_ticker) interval_str)
      = Except.ok r2)
    (h3 : cursor (future_query (mk_table_name stock_ticker)) = Except.ok r3)
    (p1 : process_rows r1 "close_price" = Except.ok a)
    (p2 : process_rows_with_prediction r2 "predict_price" true = Except.ok b)
    (p3 : process_rows_with_prediction r3 "predict_price" true = Except.ok c) :
    fetch_stock_data_combined cursor stock_ticker interval_str
      = Except.ok ((a ++ b) ++ c) ∧
    ((a ++ b) ++ c).length = a.length + b.length + c.length ∧
    ∀ p : Dict, ((a ++ b) ++ c).count p = a.count p + b.count p + c.count p := by
  refine ⟨?_, ?_, ?_⟩
  · rw [fetch_stock_data_combined, h1, except_bind_ok, p1, except_bind_ok, h2,
      except_bind_ok, p2, except_bind_ok, h3, except_bind_ok, p3, except_bind_ok]
  · simp [List.length_append, Nat.add_assoc]
  · intro p
    simp [List.count_append, Nat.add_assoc]

theorem fetch_combined_is_concatenation_witness :
    fetch_stock_data_combined cursorB "FPT" "'1 month'"
      = Except.ok (([ptA] ++ [ptP]) ++ [ptP]) ∧
    (([ptA] ++ [ptP]) ++ [ptP]).length = [ptA].length + [ptP].length + [ptP].length ∧
    ∀ p : Dict, (([ptA] ++ [ptP]) ++ [ptP]).count p
      = [ptA].count p + [ptP].count p + [ptP].count p :=
  fetch_combined_is_concatenation cursorB "FPT" "'1 month'" [rowA] [rowP] [rowP]
    [ptA] [ptP] [ptP] (by decide) (by decide) (by decide) (by decide) (by decide) (by decide)

/-- C2: For every list of input rows, the Row Normalizer (`process_rows`
and `process_rows_with_prediction`) produces no output point for a row
whose date or designated price field is missing/None — processing such a
row is the same as processing only the remaining rows — and its output
length is at most its input length. -/
theorem row_normalizer_skips_invalid (row : Row) (rows : List Row) (col : String)
    (keep : Bool) :
    (dget row "date" = PyVal.none ∨ dget row col = PyVal.none →
      process_rows (row :: rows) col = process_rows rows col ∧
      process_rows_with_prediction (row :: rows) col keep
        = process_rows_with_prediction rows col keep) ∧
    (∀ out, process_rows rows col = Except.ok out → out.length ≤ rows.length) ∧
    (∀ out, process_rows_with_prediction rows col keep = Except.ok out →
      out.length ≤ rows.length) :=
  ⟨fun h => ⟨process_rows_skip row rows col h, pwp_skip row rows col keep h⟩,
   process_rows_length rows col, pwp_length rows col keep⟩

theorem row_normalizer_skips_invalid_witness :
    (process_rows [rowBad, rowA] "close_price" = process_rows [rowA] "close_price" ∧
      process_rows_with_prediction [rowBad, rowA] "close_price" false
        = process_rows_with_prediction [rowA] "close_price" false) ∧
    [ptA].length ≤ [rowA].length :=
  ⟨(row_normalizer_skips_invalid rowBad [rowA] "close_price" false).1 (Or.inl rfl),
   ((row_normalizer_skips_invalid rowBad [rowA] "close_price" false).2.1 [ptA] (by decide))⟩

/-- C3: A row whose price field is a textual numeric value with
thousands-separator commas (such as the string `"1,234.5"`) yields a point
whose numeric value is the number with all commas removed (`1234.5`); a
price field with non-numeric residue after comma removal yields no point
for that row. -/
theorem row_normalizer_comma_prices (row : Row) (rows : List Row) (col : String)
    (y m d : Nat) (s : String)
    (hd : dget row "date" = PyVal.date y m d)
    (hp : dget row col = PyVal.str s) :
    (∀ v, pyFloat (stripCommas s) = some v →
      process_rows (row :: rows) col
        = Except.map (fun out => mkPoint "close_price" (fmtDate y m d) v :: out)
            (process_rows rows col)) ∧
    (pyFloat (stripCommas s) = none →
      process_rows (row :: rows) col = process_rows rows col) := by
  have hguard : ¬(dget row "date" = PyVal.none ∨ dget row col = PyVal.none) := by
    rw [hd, hp]
    rintro (h | h) <;> exact PyVal.noConfusion h
  constructor
  · intro v hv
    rw [process_rows, if_neg hguard, hd, hp]
    simp only [pyStrftime, coercePrice, hv]
  · intro hv
    rw [process_rows, if_neg hguard, hd, hp]
    simp only [pyStrftime, coercePrice, hv]

theorem row_normalizer_comma_prices_witness :
    process_rows [rowComma] "close_price"
      = Except.map (fun out => mkPoint "close_price" (fmtDate 2024 1 3) (mkRat 2469 2) :: out)
          (process_rows ([] : List Row) "close_price") ∧
    process_rows [rowNonNum] "close_price" = process_rows ([] : List Row) "close_price" :=
  ⟨(row_normalizer_comma_prices rowComma [] "close_price" 2024 1 3 "1,234.5"
      (by decide) (by decide)).1 (mkRat 2469 2) (by decide),
   (row_normalizer_comma_prices rowNonNum [] "close_price" 2024 1 4 "abc"
      (by decide) (by decide)).2 (by decide)⟩

/-- C4 (counterexample): the Row Normalizer CAN raise to its caller on a
failing row — a row whose date field is a non-None value without a
`strftime` method (here the string `"2024-01-01"`) raises
`AttributeError`, which the `except (ValueError, TypeError)` clause does
not catch. -/
theorem process_rows_raises_on_nondate :
    process_rows [rowStrDate] "close_price" = Except.error PyExc.attributeError := by
  decide

/-- C4 (amended): for every list of rows whose date fields are each
either missing/None or calendar-date objects, the Row Normalizer never
raises to its caller: whatever the price fields hold, every failing row
is skipped and the remaining rows are still processed, so both
normalizers return a result. -/
theorem row_normalizer_no_raise_on_date_fields (rows : List Row) (col : String)
    (keep : Bool)
    (hdates : ∀ row ∈ rows, dget row "date" = PyVal.none ∨
      ∃ y m d, dget row "date" = PyVal.date y m d) :
    (∃ out, process_rows rows col = Except.ok out) ∧
    (∃ out, process_rows_with_prediction rows col keep = Except.ok out) :=
  ⟨process_rows_ok_of_dates rows col hdates, pwp_ok_of_dates rows col keep hdates⟩

theorem row_normalizer_no_raise_on_date_fields_witness :
    (∃ out, process_rows [rowBad, rowComma, rowNonNum, rowA] "close_price"
      = Except.ok out) ∧
    (∃ out, process_rows_with_prediction [rowBad, rowComma, rowNonNum, rowA]
      "close_price" false = Except.ok out) :=
  row_normalizer_no_raise_on_date_fields [rowBad, rowComma, rowNonNum, rowA]
    "close_price" false
    (by
      intro r hr
      simp only [List.mem_cons, List.not_mem_nil, or_false] at hr
      rcases hr with rfl | rfl | rfl | rfl
      · exact Or.inl rfl
      · exact Or.inr ⟨2024, 1, 3, rfl⟩
      · exact Or.inr ⟨2024, 1, 4, rfl⟩
      · exact Or.inr ⟨2024, 1, 2, rfl⟩)

/-- C5: In a Blended build, every point of the past-actual sub-series
carries its value under the actual-price key `close_price`, and every
point of the past-predicted and future-predicted sub-series carries its
value under the predicted-price key `predict_price`, never relabeled as
actual; hence every element of the Blended payload is either a
`date`/`close_price` object or a `date`/`predict_price` object. -/
theorem blended_series_labels (cursor : Cursor)
    (stock_ticker interval_str : String) (r1 r2 r3 : List Row) (a b c : List Dict)
    (h1 : cursor (past_historical_query (mk_table_name stock_ticker) interval_str)
      = Except.ok r1)
    (h2 : cursor (past_prediction_query (mk_table_name stock_ticker) interval_str)
      = Except.ok r2)
    (h3 : cursor (future_query (mk_table_name stock_ticker)) = Except.ok r3)
    (p1 : process_rows r1 "close_price" = Except.ok a)
    (p2 : process_rows_with_prediction r2 "predict_price" true = Except.ok b)
    (p3 : process_rows_with_prediction r3 "predict_price" true = Except.ok c) :
    fetch_stock_data_combined cursor stock_ticker interval_str
      = Except.ok ((a ++ b) ++ c) ∧
    (∀ p ∈ a, ∃ s v, p = mkPoint "close_price" s v) ∧
    (∀ p ∈ b, ∃ s v, p = mkPoint "predict_price" s v) ∧
    (∀ p ∈ c, ∃ s v, p = mkPoint "predict_price" s v) ∧
    ∀ p ∈ (a ++ b) ++ c,
      (∃ s v, p = mkPoint "close_price" s v) ∨ ∃ s v, p = mkPoint "predict_price" s v := by
  have ha : ∀ p ∈ a, ∃ s v, p = mkPoint "close_price" s v := by
    intro p hp
    obtain ⟨y, m, d, v, hpe⟩ := process_rows_shape r1 "close_price" a p1 p hp
    exact ⟨fmtDate y m d, v, hpe⟩
  have hb : ∀ p ∈ b, ∃ s v, p = mkPoint "predict_price" s v := by
    intro p hp
    obtain ⟨y, m, d, v, hpe⟩ := pwp_shape r2 "predict_price" true b p2 p hp
    exact ⟨fmtDate y m d, v, hpe⟩
  have hc : ∀ p ∈ c, ∃ s v, p = mkPoint "predict_price" s v := by
    intro p hp
    obtain ⟨y, m, d, v, hpe⟩ := pwp_shape r3 "predict_price" true c p3 p hp
    exact ⟨fmtDate y m d, v, hpe⟩
  refine ⟨?_, ha, hb, hc, ?_⟩
  · rw [fetch_stock_data_combined, h1, except_bind_ok, p1, except_bind_ok, h2,
      except_bind_ok, p2, except_bind_ok, h3, except_bind_ok, p3, except_bind_ok]
  · intro p hp
    rcases List.mem_append.mp hp with hp | hp
    · rcases List.mem_append.mp hp with hp | hp
      · exact Or.inl (ha p hp)
      · exact Or.inr (hb p hp)
    · exact Or.inr (hc p hp)

theorem blended_series_labels_witness :
    fetch_stock_data_combined cursorB "FPT" "'1 month'"
      = Except.ok (([ptA] ++ [ptP]) ++ [ptP]) ∧
    (∃ s v, ptA = mkPoint "close_price" s v) ∧
    (∃ s v, ptP = mkPoint "predict_price" s v) ∧
    ((∃ s v, ptP = mkPoint "close_price" s v) ∨ ∃ s v, ptP = mkPoint "predict_price" s v) := by
  have h := blended_series_labels cursorB "FPT" "'1 month'" [rowA] [rowP] [rowP]
    [ptA] [ptP] [ptP] (by decide) (by decide) (by decide) (by decide) (by decide) (by decide)
  exact ⟨h.1, h.2.1 ptA (by decide), h.2.2.1 ptP (by decide), h.2.2.2.2 ptP (by decide)⟩

/-- C6: A cache set command is staged for a pair exactly when the built
series is non-empty; when staged, its key is `stock:<TICKER>:<RANGE_ID>`
and its expiry is 86400 seconds; every command accumulated by the
orchestrator loop arises this way from some range of the registry, and
per-ticker command lists concatenate across the outer loop. -/
theorem cache_staging_spec :
    (∀ (ticker range_key : String) (stock_data : List Dict),
      (stock_data = [] → stage_pair ticker range_key stock_data = []) ∧
      (stock_data ≠ [] → stage_pair ticker range_key stock_data
        = [StagedCmd.mk ("stock:" ++ ticker ++ ":" ++ range_key) stock_data 86400])) ∧
    (∀ (intervals : List (String × String)) (cursor : Cursor) (ticker : String)
      (ranges : List (String × String)) (cmds : List StagedCmd),
      sync_ranges intervals cursor ticker ranges = Except.ok cmds →
      ∀ cmd ∈ cmds, cmd.ex = 86400 ∧ cmd.value ≠ [] ∧
        ∃ range_key condition, (range_key, condition) ∈ ranges ∧
          cmd.key = "stock:" ++ ticker ++ ":" ++ range_key) ∧
    (∀ (timeRanges intervals : List (String × String)) (cursor : Cursor)
      (ticker : String) (rest : List String) (c1 c2 : List StagedCmd),
      sync_ranges intervals cursor ticker timeRanges = Except.ok c1 →
      sync_tickers timeRanges intervals cursor rest = Except.ok c2 →
      sync_tickers timeRanges intervals cursor (ticker :: rest) = Except.ok (c1 ++ c2)) := by
  refine ⟨?_, ?_, ?_⟩
  · intro ticker range_key stock_data
    constructor
    · intro h
      rw [stage_pair, if_pos h]
    · intro h
      rw [stage_pair, if_neg h]
  · intro intervals cursor ticker ranges
    induction ranges with
    | nil =>
      intro cmds h
      simp only [sync_ranges, Except.ok.injEq] at h
      subst h
      intro cmd hc
      cases hc
    | cons pr rest ih =>
      intro cmds h
      obtain ⟨rk, cond⟩ := pr
      rw [sync_ranges] at h
      cases hb : build_pair intervals cursor ticker rk cond with
      | error e => rw [hb] at h; cases h
      | ok data =>
        rw [hb, except_bind_ok] at h
        cases hr : sync_ranges intervals cursor ticker rest with
        | error e => rw [hr] at h; cases h
        | ok restCmds =>
          rw [hr, except_bind_ok] at h
          simp only [Except.ok.injEq] at h
          subst h
          intro cmd hc
          rcases List.mem_append.mp hc with hc | hc
          · rw [stage_pair] at hc
            by_cases hdata : data = []
            · rw [if_pos hdata] at hc
              cases hc
            · rw [if_neg hdata] at hc
              have hce := List.mem_singleton.mp hc
              subst hce
              exact ⟨rfl, hdata, rk, cond, List.mem_cons_self _ _, rfl⟩
          · obtain ⟨hex, hval, rk2, cond2, hmem, hkey⟩ := ih restCmds hr cmd hc
            exact ⟨hex, hval, rk2, cond2, List.mem_cons_of_mem _ hmem, hkey⟩
  · intro timeRanges intervals cursor ticker rest c1 c2 hA hB
    rw [sync_tickers, hA, except_bind_ok, hB, except_bind_ok]

theorem cache_staging_spec_witness :
    stage_pair "FPT" "all" [] = [] ∧
    stage_pair "FPT" "1Y" [ptA]
      = [StagedCmd.mk ("stock:" ++ "FPT" ++ ":" ++ "1Y") [ptA] 86400] ∧
    ((StagedCmd.mk "stock:FPT:all" [ptA] 86400).ex = 86400 ∧
      (StagedCmd.mk "stock:FPT:all" [ptA] 86400).value ≠ [] ∧
      ∃ range_key condition, (range_key, condition) ∈ [("all", "")] ∧
        (StagedCmd.mk "stock:FPT:all" [ptA] 86400).key
          = "stock:" ++ "FPT" ++ ":" ++ range_key) ∧
    sync_tickers [("all", "")] [] cursorOne ("GAS" :: [])
      = Except.ok ([StagedCmd.mk "stock:GAS:all" [ptA] 86400] ++ []) :=
  ⟨(cache_staging_spec.1 "FPT" "all" []).1 rfl,
   (cache_staging_spec.1 "FPT" "1Y" [ptA]).2 (by decide),
   cache_staging_spec.2.1 [] cursorOne "FPT" [("all", "")]
     [StagedCmd.mk "stock:FPT:all" [ptA] 86400] (by decide)
     (StagedCmd.mk "stock:FPT:all" [ptA] 86400) (by decide),
   cache_staging_spec.2.2 [("all", "")] [] cursorOne "GAS" []
     [StagedCmd.mk "stock:GAS:all" [ptA] 86400] [] (by decide) rfl⟩

/-- C7: For every execution of the sync run, an exception from any stage
aborts the whole run: the batch commit is not attempted after a loop
error, the exception is surfaced as the result, and the relational
connection is closed on every exit path, success or failure. -/
theorem sync_error_propagation (cursor : Cursor)
    (commit : List StagedCmd → Except PyExc Unit) :
    (sync_stock_data_to_redis cursor commit).pgClosed = true ∧
    (∀ e, sync_loop cursor = Except.error e →
      sync_stock_data_to_redis cursor commit
        = SyncOutcome.mk (Except.error e) false true) ∧
    (∀ cmds e, sync_loop cursor = Except.ok cmds → commit cmds = Except.error e →
      sync_stock_data_to_redis cursor commit
        = SyncOutcome.mk (Except.error e) true true) ∧
    (∀ cmds, sync_loop cursor = Except.ok cmds → commit cmds = Except.ok () →
      sync_stock_data_to_redis cursor commit
        = SyncOutcome.mk (Except.ok "Stock data synced successfully.") true true) := by
  refine ⟨?_, ?_, ?_, ?_⟩
  · cases h : sync_loop cursor with
    | error e => simp [sync_stock_data_to_redis, h]
    | ok cmds =>
      cases h2 : commit cmds with
      | error e => simp [sync_stock_data_to_redis, h, h2]
      | ok u => simp [sync_stock_data_to_redis, h, h2]
  · intro e h
    simp [sync_stock_data_to_redis, h]
  · intro cmds e h1 h2
    simp [sync_stock_data_to_redis, h1, h2]
  · intro cmds h1 h2
    simp [sync_stock_data_to_redis, h1, h2]

theorem sync_error_propagation_witness :
    (sync_stock_data_to_redis cursorErr commitOk).pgClosed = true ∧
    sync_stock_data_to_redis cursorErr commitOk
      = SyncOutcome.mk (Except.error (PyExc.dbError "db down")) false true ∧
    sync_stock_data_to_redis cursorNil commitFail
      = SyncOutcome.mk (Except.error (PyExc.dbError "redis down")) true true ∧
    sync_stock_data_to_redis cursorNil commitOk
      = SyncOutcome.mk (Except.ok "Stock data synced successfully.") true true :=
  ⟨(sync_error_propagation cursorErr commitOk).1,
   (sync_error_propagation cursorErr commitOk).2.1 (PyExc.dbError "db down") (by decide),
   (sync_error_propagation cursorNil commitFail).2.2.1 [] (PyExc.dbError "redis down")
     (by decide) rfl,
   (sync_error_propagation cursorNil commitOk).2.2.2 [] (by decide) rfl⟩

/-- C8: A range marked `SPECIAL_CASE` without an entry in the
special-case interval map neither raises nor aborts the run: the pair
builds an empty series (after a logged warning), stages no cache
command, and the loop continues with the remaining pairs unchanged. -/
theorem special_case_without_interval_skipped (intervals : List (String × String))
    (cursor : Cursor) (ticker range_key : String) (rest : List (String × String))
    (h : dictFind intervals range_key = none) :
    build_pair intervals cursor ticker range_key "SPECIAL_CASE" = Except.ok [] ∧
    sync_ranges intervals cursor ticker ((range_key, "SPECIAL_CASE") :: rest)
      = sync_ranges intervals cursor ticker rest := by
  have hb : build_pair intervals cursor ticker range_key "SPECIAL_CASE"
      = Except.ok [] := by
    rw [build_pair, if_pos rfl, h]
  refine ⟨hb, ?_⟩
  rw [sync_ranges, hb, except_bind_ok]
  cases hr : sync_ranges intervals cursor ticker rest with
  | error e => rfl
  | ok cmds =>
    rw [except_bind_ok]
    simp [stage_pair]

theorem special_case_without_interval_skipped_witness :
    build_pair [("3M", "'3 months'")] cursorNil "FPT" "1M" "SPECIAL_CASE"
      = Except.ok [] ∧
    sync_ranges [("3M", "'3 months'")] cursorNil "FPT"
      (("1M", "SPECIAL_CASE") :: [("all", "")])
      = sync_ranges [("3M", "'3 months'")] cursorNil "FPT" [("all", "")] :=
  special_case_without_interval_skipped [("3M", "'3 months'")] cursorNil "FPT" "1M"
    [("all", "")] (by decide)

/-- C9: The two normalizers agree on their common domain:
`process_rows_with_prediction` with `keep_original_label = False` equals
`process_rows` for every row list and column, and they also coincide
with `keep_original_label = True` whenever the column is not
`predict_price`. -/
theorem normalizers_equivalent (rows : List Row) (col : String) :
    process_rows_with_prediction rows col false = process_rows rows col ∧
    (col ≠ "predict_price" →
      process_rows_with_prediction rows col true = process_rows rows col) :=
  ⟨pwp_eq_process_rows rows col false (Or.inl rfl),
   fun h => pwp_eq_process_rows rows col true (Or.inr h)⟩

theorem normalizers_equivalent_witness :
    process_rows_with_prediction [rowA, rowComma] "close_price" false
      = process_rows [rowA, rowComma] "close_price" ∧
    process_rows_with_prediction [rowA, rowComma] "close_price" true
      = process_rows [rowA, rowComma] "close_price" :=
  ⟨(normalizers_equivalent [rowA, rowComma] "close_price").1,
   (normalizers_equivalent [rowA, rowComma] "close_price").2 (by decide)⟩

/-- C10: Every point either normalizer emits has exactly two fields: a
`date` field holding a `YYYY-MM-DD` string, and exactly one numeric
price field — `close_price` or `predict_price`, never both, never
neither — holding a number; no None/missing values appear.  The
hypothesis restricts the input date fields to the domain on which
`fmtDate` models `strftime` exactly (calendar dates with four-digit
years). -/
theorem output_point_shape (rows : List Row) (col : String) (keep : Bool)
    (out : List Dict)
    (_hvalid : ∀ row ∈ rows, pyDateValid (dget row "date"))
    (h : process_rows rows col = Except.ok out ∨
      process_rows_with_prediction rows col keep = Except.ok out) :
    ∀ p ∈ out, ∃ s k v, p = [("date", PyVal.str s), (k, PyVal.num v)] ∧
      isIsoShape s = true ∧ (k = "close_price" ∨ k = "predict_price") := by
  intro p hp
  rcases h with h | h
  · obtain ⟨y, m, d, v, hpe⟩ := process_rows_shape rows col out h p hp
    exact ⟨fmtDate y m d, "close_price", v, hpe, isIsoShape_fmtDate y m d, Or.inl rfl⟩
  · obtain ⟨y, m, d, v, hpe⟩ := pwp_shape rows col keep out h p hp
    rcases predColumn_cases keep col with hk | hk
    · exact ⟨fmtDate y m d, "close_price", v, by rw [hpe, hk]; rfl,
        isIsoShape_fmtDate y m d, Or.inl rfl⟩
    · exact ⟨fmtDate y m d, "predict_price", v, by rw [hpe, hk]; rfl,
        isIsoShape_fmtDate y m d, Or.inr rfl⟩

theorem output_point_shape_witness :
    ∃ s k v, ptA = [("date", PyVal.str s), (k, PyVal.num v)] ∧
      isIsoShape s = true ∧ (k = "close_price" ∨ k = "predict_price") :=
  output_point_shape [rowA] "close_price" false [ptA]
    (by
      intro r hr
      simp only [List.mem_cons, List.not_mem_nil, or_false] at hr
      subst hr
      decide)
    (Or.inl (by decide)) ptA (by decide)
